import Mathlib

/-!
Verification of the client-side extent engine facade (`sdk/data/extent_client.go`
of cefufu/cubefs) against its natural-language specification.

The facade's public operations (`Write`, `SyncWrite`, `SyncWriteToSpecificExtent`,
`Truncate`, `Flush`, `Read`, `ExtentMerge`, `FileSize`, `CloseStream`,
`MustCloseStream`, `EvictStream`, `Close`, rate control, `updateConfig`,
`SetExtentSize`) are embedded as pure functions over an explicit client state.
Streamer-internal behaviour that lives outside the facade source (the worker
loop, the data-partition wrapper, the metadata callbacks) is abstracted into an
`Oracle` of response functions, and every operation additionally returns the
list of requests it issued to those collaborators (its event trace), so that
"the streamer is not touched" and ordering claims are statable.
-/

namespace Cfs


/-- Error values surfaced by the extent client. Error message strings are not
modelled; `traced` stands for `errors.Trace` wrapping an inner error with a
context prefix, and `other n` stands for an arbitrary collaborator error. -/
inductive CErr where
  | volNotExists
  | getExtentsFailed
  | streamNotOpened
  | extentNotFound
  | traced (inner : CErr)
  | other (code : Nat)
deriving DecidableEq, Repr

/-- Models `strings.Contains(err.Error(), proto.ExtentNotFoundError.Error())`:
the error text contains the extent-not-found message exactly when the error is
`extentNotFound`, possibly wrapped by `errors.Trace`. -/
def CErr.containsExtentNotFound : CErr → Bool
  | .extentNotFound => true
  | .traced e => e.containsExtentNotFound
  | _ => false

/-- The `proto.ExtentKey` record: {PartitionId, ExtentId, ExtentOffset, FileOffset, Size}. -/
structure ExtentKey where
  partitionId : Nat
  extentId : Nat
  extentOffset : Nat
  fileOffset : Nat
  size : Nat
deriving DecidableEq, Repr

/-- An `ExtentRequest` produced by `PrepareRequests`: a sub-range of the write,
an overwrite when `extentKey` is non-nil and an append when it is nil. The byte
payload is not modelled (only its length matters to the facade). -/
structure ExtentRequest where
  fileOffset : Nat
  size : Nat
  extentKey : Option ExtentKey
deriving DecidableEq, Repr

/-- The observable part of a streamer's `ExtentCache`: the `initialized` flag,
the cached file size and generation, and the age (in seconds) since the last
refresh, which drives `IsExpired`. -/
structure ExtentCache where
  initialized : Bool
  size : Nat
  gen : Nat
  ageSec : Nat
deriving DecidableEq, Repr

/-- Modelled from the spec: `ExtentCache.IsExpired(seconds)` — an entry is
expired when its age exceeds the given TTL (spec section 3: "an entry is
expired when age > configured TTL"). The cache code is not under src/. -/
def ExtentCache.isExpired (c : ExtentCache) (ttlSec : Nat) : Bool :=
  ttlSec < c.ageSec

/-- Per-inode streamer state visible to the facade: the extent cache, the
one-shot `sync.Once` latch guarding the first `GetExtents`, and the overwrite
buffer. -/
structure Streamer where
  inode : Nat
  extents : ExtentCache
  onceDone : Bool
  overWriteBuffer : List ExtentRequest
deriving DecidableEq, Repr

/-- The `rate.Limit` value: either the unlimited sentinel `rate.Inf` or a finite
bytes-per-second value. -/
inductive Limit where
  | inf
  | lim (v : Int)
deriving DecidableEq, Repr

/-- Requests the facade issues to its collaborators (streamer worker, data
wrapper, connection pool); each public operation returns the list of these it
performed, in order. -/
inductive Event where
  | getExtents (ino : Nat)
  | appendOverWrite (ino fileOffset size : Nat) (direct : Bool)
  | issueWrite (ino offset size : Nat) (direct overWriteBuffer : Bool)
  | issueFlush (ino : Nat)
  | issueTrunc (ino size : Nat)
  | issueRelease (ino : Nat)
  | issueMustRelease (ino : Nat)
  | issueEvict (ino : Nat)
  | issueExtentMerge (ino : Nat)
  | streamRead (ino : Nat) (attempt : Nat) (offset : Nat) (size : Int)
  | writeToNewExtent (ino offset size : Nat)
  | writeToSpecificExtent (ino fileOffset extID : Nat)
  | closeStop
  | wgWait
  | wrapperStop
  | connPoolClose
deriving DecidableEq, Repr

/-- Responses of the collaborators the facade calls into. The streamer worker,
the extent cache's request planner and the data-partition wrapper are not part
of the facade source, so their results are abstracted as arbitrary functions;
theorems quantify over the oracle. `updateTtlSec` is the TTL used by
`UpdateExpiredExtentCache` (spec: "checks cache expiry and refreshes the
expired tail before reading"; the concrete TTL is not fixed by the facade). -/
structure Oracle where
  getExtents : Nat → Except CErr (Nat × Nat)
  prepareRequests : Nat → Nat → Nat → List ExtentRequest
  issueWrite : Nat → Nat → Nat → Bool → Bool → Nat × Bool × Option CErr
  issueFlush : Nat → Option CErr
  issueTrunc : Nat → Nat → Option CErr
  issueRelease : Nat → Option CErr
  issueMustRelease : Nat → Option CErr
  issueEvict : Nat → Option CErr
  issueExtentMerge : Nat → Bool × Option CErr
  streamRead : Nat → Nat → Nat → Int → Nat × Bool × Option CErr
  writeToNewExtent : Nat → Nat → Nat → Except CErr (Nat × Nat × Nat)
  writeToSpecificExtent : Nat → Nat → Nat → Except CErr Nat
  updateTtlSec : Nat

/-- The info pulled from the master by `GetLimitInfo`; Go maps are modelled as
association lists (a Go map lookup of an absent key yields the zero value). -/
structure LimitInfo where
  clientReadVolRateLimitMap : List (String × Nat)
  clientWriteVolRateLimitMap : List (String × Nat)
  extentMergeIno : List (String × List Nat)
  extentMergeSleepMs : Nat
deriving DecidableEq, Repr

/-- Go `v, ok := m[k]` on a `map[string]uint64`: the value and presence flag;
an absent key yields the zero value. -/
def goMapLookupNat (m : List (String × Nat)) (k : String) : Nat × Bool :=
  match m.find? (fun p => p.1 == k) with
  | some p => (p.2, true)
  | none => (0, false)

/-- Go `m[k]` on a `map[string][]uint64`: an absent key yields a nil slice. -/
def goMapLookupList (m : List (String × List Nat)) (k : String) : List Nat :=
  match m.find? (fun p => p.1 == k) with
  | some p => p.2
  | none => []

/-- The `ExtentClient` state the claims touch. The sharded
`streamerConcurrentMap` is flattened to one association list (shard selection
is a pure partition of the key space and does not affect lookup results);
`volNotExists` is what `dataWrapper.VolNotExists()` currently reports. -/
structure ExtentClient where
  volName : String
  streamers : List (Nat × Streamer)
  volNotExists : Bool
  originReadRate : Int
  originWriteRate : Int
  readRate : Nat
  writeRate : Nat
  readLimiter : Limit
  writeLimiter : Limit
  extentSize : Int
  extentMerge : Bool
  extentMergeIno : List Nat
  extentMergeSleepMs : Nat
deriving DecidableEq, Repr

/-- The `GetStreamer` lookup: registry lookup; never creates a streamer. -/
def ExtentClient.lookupStreamer (c : ExtentClient) (ino : Nat) : Option Streamer :=
  (c.streamers.find? (fun p => p.1 == ino)).map Prod.snd

/-- Store back the (worker-mutated) streamer under its inode. -/
def ExtentClient.setStreamer (c : ExtentClient) (ino : Nat) (s : Streamer) : ExtentClient :=
  { c with streamers := c.streamers.map (fun p => if p.1 == ino then (ino, s) else p) }

/-- Registry removal, performed when an evicted streamer's worker has exited. -/
def ExtentClient.removeStreamer (c : ExtentClient) (ino : Nat) : ExtentClient :=
  { c with streamers := c.streamers.filter (fun p => p.1 != ino) }

/-- Modelled from the spec: `Streamer.GetExtents` (streamer code is not under
src/) — a snapshot fetch via the `onGetExtents` callback; on success the cache
becomes initialized with the fetched size and generation and is marked fresh,
on error the cache is left unchanged. -/
def Streamer.getExtents (o : Oracle) (s : Streamer) : Streamer × Option CErr :=
  match o.getExtents s.inode with
  | .ok (sz, g) =>
      ({ s with extents := { initialized := true, size := sz, gen := g, ageSec := 0 } }, none)
  | .error e => (s, some e)

/-- The latch step `s.once.Do(func() { s.GetExtents(ctx) })`: runs the fetch only the first
time; the latch is marked done even when the fetch fails, and the fetch error
is discarded (the caller re-checks `initialized`). -/
def Streamer.doOnce (o : Oracle) (s : Streamer) : Streamer × List Event :=
  if s.onceDone then (s, [])
  else
    let (s1, _) := Streamer.getExtents o s
    ({ s1 with onceDone := true }, [Event.getExtents s.inode])

/-- Modelled from the spec: `Streamer.UpdateExpiredExtentCache` (not under
src/) — refreshes the cache when it is expired with respect to the refresh
TTL, otherwise does nothing. -/
def Streamer.updateExpiredExtentCache (o : Oracle) (s : Streamer) : Streamer × List Event :=
  if s.extents.isExpired o.updateTtlSec then
    let (s1, _) := Streamer.getExtents o s
    (s1, [Event.getExtents s.inode])
  else (s, [])

/-- Modelled from the spec: `Streamer.appendOverWriteReq` (not under src/) —
appends the overwrite request to the streamer's overwrite buffer and returns
the request's size, which `Write` accumulates as the bytes written (spec:
"append them to the overwrite buffer and return synchronously"). -/
def Streamer.appendOverWriteReq (s : Streamer) (req : ExtentRequest) (direct : Bool) :
    Streamer × Nat :=
  ({ s with overWriteBuffer := s.overWriteBuffer ++ [req] }, req.size)

/-- One step of the overwrite-buffer loop in `Write`:
`for _, req := range requests { write += s.appendOverWriteReq(req, direct) }`. -/
def overWriteStep (ino : Nat) (direct : Bool) (acc : Streamer × Nat × List Event)
    (req : ExtentRequest) : Streamer × Nat × List Event :=
  let (s, w, evs) := acc
  let (s1, n) := s.appendOverWriteReq req direct
  (s1, w + n, evs ++ [Event.appendOverWrite ino req.fileOffset req.size direct])

/-- The facade operation `ExtentClient.Write` (extent_client.go lines 322-360). Returns
`(write, isROW, err)`, the updated client and the issued requests. The byte
slice is represented by its length. -/
def ExtentClient.Write (client : ExtentClient) (o : Oracle) (inode offset dataLen : Nat)
    (direct overWriteBuffer : Bool) : (Nat × Bool × Option CErr) × ExtentClient × List Event :=
  if client.volNotExists then ((0, false, some .volNotExists), client, [])
  else
    match client.lookupStreamer inode with
    | none => ((0, false, some .streamNotOpened), client, [])
    | some s =>
      let (s, ev1) := s.doOnce o
      let client := client.setStreamer inode s
      if !s.extents.initialized then ((0, false, some .getExtentsFailed), client, ev1)
      else if overWriteBuffer then
        let requests := o.prepareRequests inode offset dataLen
        let hasAppendWrite := requests.any fun req => req.extentKey.isNone
        if hasAppendWrite then
          (o.issueWrite inode offset dataLen direct overWriteBuffer, client,
            ev1 ++ [Event.issueWrite inode offset dataLen direct overWriteBuffer])
        else
          let (s2, write, evs) := requests.foldl (overWriteStep inode direct) (s, 0, [])
          ((write, false, none), client.setStreamer inode s2, ev1 ++ evs)
      else
        (o.issueWrite inode offset dataLen direct overWriteBuffer, client,
          ev1 ++ [Event.issueWrite inode offset dataLen direct overWriteBuffer])

/-- The facade operation `ExtentClient.SyncWrite` (lines 362-387): allocate a fresh extent, write
synchronously and return the new key without inserting it into the cache.
Result: `(dp partition id, write, newEk, err)`. -/
def ExtentClient.SyncWrite (client : ExtentClient) (o : Oracle) (inode offset dataLen : Nat) :
    (Option Nat × Nat × Option ExtentKey × Option CErr) × ExtentClient × List Event :=
  if client.volNotExists then ((none, 0, none, some .volNotExists), client, [])
  else
    match client.lookupStreamer inode with
    | none => ((none, 0, none, some .streamNotOpened), client, [])
    | some _ =>
      match o.writeToNewExtent inode offset dataLen with
      | .error e => ((none, 0, none, some e), client, [Event.writeToNewExtent inode offset dataLen])
      | .ok (dpId, exId, w) =>
        ((some dpId, w,
          some { partitionId := dpId, extentId := exId, extentOffset := 0,
                 fileOffset := offset, size := dataLen }, none),
         client, [Event.writeToNewExtent inode offset dataLen])

/-- The facade operation `ExtentClient.SyncWriteToSpecificExtent` (lines 389-406). -/
def ExtentClient.SyncWriteToSpecificExtent (client : ExtentClient) (o : Oracle)
    (dpId inode fileOffset extentOffset dataLen extID : Nat) :
    (Nat × Option CErr) × ExtentClient × List Event :=
  if client.volNotExists then ((0, some .volNotExists), client, [])
  else
    match client.lookupStreamer inode with
    | none => ((0, some .streamNotOpened), client, [])
    | some _ =>
      match o.writeToSpecificExtent inode fileOffset extID with
      | .error e => ((0, some e), client, [Event.writeToSpecificExtent inode fileOffset extID])
      | .ok total => ((total, none), client, [Event.writeToSpecificExtent inode fileOffset extID])

/-- The facade operation `ExtentClient.Truncate` (lines 408-433). A failing trunc request is wrapped
by `errors.Trace` with a context prefix, modelled by `CErr.traced`. -/
def ExtentClient.Truncate (client : ExtentClient) (o : Oracle) (inode size : Nat) :
    Option CErr × ExtentClient × List Event :=
  if client.volNotExists then (some .volNotExists, client, [])
  else
    match client.lookupStreamer inode with
    | none => (some .streamNotOpened, client, [])
    | some s =>
      let (s, ev1) := s.doOnce o
      let client := client.setStreamer inode s
      if !s.extents.initialized then (some .getExtentsFailed, client, ev1)
      else
        match o.issueTrunc inode size with
        | some e => (some (.traced e), client, ev1 ++ [Event.issueTrunc inode size])
        | none => (none, client, ev1 ++ [Event.issueTrunc inode size])

/-- The facade operation `ExtentClient.Flush` (lines 435-445). -/
def ExtentClient.Flush (client : ExtentClient) (o : Oracle) (inode : Nat) :
    Option CErr × ExtentClient × List Event :=
  if client.volNotExists then (some .volNotExists, client, [])
  else
    match client.lookupStreamer inode with
    | none => (some .streamNotOpened, client, [])
    | some _ => (o.issueFlush inode, client, [Event.issueFlush inode])

/-- The facade operation `ExtentClient.Read` (lines 447-497). `size` is a Go `int`; only `size == 0`
short-circuits. On a read error containing `ExtentNotFound`, the retry (flush,
full refetch, one more read) happens only when the cache is older than one
second (`IsExpired(1)`). -/
def ExtentClient.Read (client : ExtentClient) (o : Oracle) (inode offset : Nat) (size : Int) :
    (Nat × Bool × Option CErr) × ExtentClient × List Event :=
  if size = 0 then ((0, false, none), client, [])
  else if client.volNotExists then ((0, false, some .volNotExists), client, [])
  else
    match client.lookupStreamer inode with
    | none => ((0, false, some .streamNotOpened), client, [])
    | some s =>
      let (s, ev1) := s.doOnce o
      if !s.extents.initialized then
        ((0, false, some .getExtentsFailed), client.setStreamer inode s, ev1)
      else
        let (s, ev2) := s.updateExpiredExtentCache o
        let (r1, h1, e1) := o.streamRead inode 1 offset size
        let ev := ev1 ++ ev2 ++ [Event.streamRead inode 1 offset size]
        let client1 := client.setStreamer inode s
        match e1 with
        | none => ((r1, h1, none), client1, ev)
        | some e =>
          if e.containsExtentNotFound then
            if !s.extents.isExpired 1 then ((r1, h1, some e), client1, ev)
            else
              match o.issueFlush inode with
              | some fe => ((r1, h1, some fe), client1, ev ++ [Event.issueFlush inode])
              | none =>
                let (s, ge) := Streamer.getExtents o s
                let client2 := client.setStreamer inode s
                let ev := ev ++ [Event.issueFlush inode, Event.getExtents inode]
                match ge with
                | some gee => ((r1, h1, some gee), client2, ev)
                | none =>
                  let (r2, h2, e2) := o.streamRead inode 2 offset size
                  ((r2, h2, e2), client2, ev ++ [Event.streamRead inode 2 offset size])
          else ((r1, h1, some e), client1, ev)

/-- The facade operation `ExtentClient.ExtentMerge` (lines 499-513). Note: unlike the other
mutating operations, it performs no `VolNotExists` check. -/
def ExtentClient.ExtentMerge (client : ExtentClient) (o : Oracle) (inode : Nat) :
    (Bool × Option CErr) × ExtentClient × List Event :=
  match client.lookupStreamer inode with
  | none => ((true, some .streamNotOpened), client, [])
  | some s =>
    let (s, ev1) := s.doOnce o
    let client := client.setStreamer inode s
    if !s.extents.initialized then ((true, some .getExtentsFailed), client, ev1)
    else (o.issueExtentMerge inode, client, ev1 ++ [Event.issueExtentMerge inode])

/-- The facade operation `ExtentClient.FileSize` (lines 301-310): `(size, gen, valid)`; a missing
streamer yields the zero values with `valid = false` and no error. The cached
pair comes from `extents.Size()` (spec section 4.3: returns size and
generation). -/
def ExtentClient.FileSize (client : ExtentClient) (inode : Nat) : Nat × Nat × Bool :=
  match client.lookupStreamer inode with
  | none => (0, 0, false)
  | some s => (s.extents.size, s.extents.gen, true)

/-- The facade operation `ExtentClient.CloseStream` (lines 250-259): graceful release; a missing
streamer is a successful no-op. -/
def ExtentClient.CloseStream (client : ExtentClient) (o : Oracle) (inode : Nat) :
    Option CErr × ExtentClient × List Event :=
  match client.lookupStreamer inode with
  | none => (none, client, [])
  | some _ => (o.issueRelease inode, client, [Event.issueRelease inode])

/-- The facade operation `ExtentClient.MustCloseStream` (lines 261-270). -/
def ExtentClient.MustCloseStream (client : ExtentClient) (o : Oracle) (inode : Nat) :
    Option CErr × ExtentClient × List Event :=
  match client.lookupStreamer inode with
  | none => (none, client, [])
  | some _ => (o.issueMustRelease inode, client, [Event.issueMustRelease inode])

/-- The facade operation `ExtentClient.EvictStream` (lines 273-289): on a successful evict request
the worker terminates and the streamer is removed from the registry (spec:
"EvictStream closes and removes the streamer; waits for worker termination");
on error the registry entry remains. -/
def ExtentClient.EvictStream (client : ExtentClient) (o : Oracle) (inode : Nat) :
    Option CErr × ExtentClient × List Event :=
  match client.lookupStreamer inode with
  | none => (none, client, [])
  | some _ =>
    match o.issueEvict inode with
    | some e => (some e, client, [Event.issueEvict inode])
    | none => (none, client.removeStreamer inode, [Event.issueEvict inode])

/-- The per-inode body of `Close`'s release loop:
`Flush(ctx, inode); MustCloseStream(ctx, inode); EvictStream(ctx, inode)`
with all three errors discarded. -/
def closeReleaseOne (o : Oracle) (acc : ExtentClient × List Event) (inode : Nat) :
    ExtentClient × List Event :=
  let (c, evs) := acc
  let (_, c, e1) := c.Flush o inode
  let (_, c, e2) := c.MustCloseStream o inode
  let (_, c, e3) := c.EvictStream o inode
  (c, evs ++ e1 ++ e2 ++ e3)

/-- The facade operation `ExtentClient.Close` (lines 638-650): close the stop channel, wait for the
background tasks, stop the data wrapper, then release every registered
streamer; always returns nil. The connection pool is not touched (its teardown
is the separate `CloseConnPool`, lines 652-657, which emits `connPoolClose`). -/
def ExtentClient.Close (client : ExtentClient) (o : Oracle) :
    Option CErr × ExtentClient × List Event :=
  let inodes := client.streamers.map Prod.fst
  let (c, evs) := inodes.foldl (closeReleaseOne o)
    (client, [Event.closeStop, Event.wgWait, Event.wrapperStop])
  (none, c, evs)

/-- The separate `CloseConnPool` (lines 652-657): process-wide pool teardown, separate from
`Close`. -/
def ExtentClient.CloseConnPool : List Event := [Event.connPoolClose]

/-- Go `int(lim.Limit())` where the limit is `rate.Inf` (`math.MaxFloat64`):
the out-of-range float-to-int conversion yields the most negative int64 on the
targeted architectures, hence a non-positive value. -/
def rateInfAsInt : Int := -(2 ^ 63)

/-- The integer the `getRate` helper sees for a limiter value. -/
def limToInt : Limit → Int
  | .inf => rateInfAsInt
  | .lim v => v

/-- The helper `getRate` (lines 531-537): positive limits print in decimal, everything
else reports "unlimited". -/
def getRate (l : Limit) : String :=
  let val := limToInt l
  if val > 0 then toString val else "unlimited"

/-- The facade operation `ExtentClient.GetRate` (lines 527-529). -/
def ExtentClient.GetRate (client : ExtentClient) : String :=
  "read: " ++ getRate client.readLimiter ++ "\nwrite: " ++ getRate client.writeLimiter ++ "\n"

/-- The helper `setRate` (lines 549-556): the new limiter value and the returned string. -/
def setRate (val : Int) : Limit × String :=
  if val > 0 then (.lim val, toString val) else (.inf, "unlimited")

/-- The facade operation `ExtentClient.SetReadRate` (lines 539-542). -/
def ExtentClient.SetReadRate (client : ExtentClient) (val : Int) : ExtentClient × String :=
  let (l, str) := setRate val
  ({ client with originReadRate := val, readLimiter := l }, str)

/-- The facade operation `ExtentClient.SetWriteRate` (lines 544-547). -/
def ExtentClient.SetWriteRate (client : ExtentClient) (val : Int) : ExtentClient × String :=
  let (l, str) := setRate val
  ({ client with originWriteRate := val, writeLimiter := l }, str)

/-- The facade operation `ExtentClient.updateConfig` (lines 590-636), the part after a successful
`GetLimitInfo`: per direction, take the per-volume master rate (falling back to
the empty key when the volume key is absent), restore the constructor rate when
the master rate is absent or zero, and set the limiter to the resulting rate or
to `rate.Inf` when it is zero. -/
def ExtentClient.updateConfig (client : ExtentClient) (info : LimitInfo) : ExtentClient :=
  let (readRate, ok) := goMapLookupNat info.clientReadVolRateLimitMap client.volName
  let (readRate, ok) := if ok then (readRate, ok)
    else goMapLookupNat info.clientReadVolRateLimitMap emptyKey
  let readRate := if (ok = false ∨ readRate = 0) ∧ (0 : Int) < client.originReadRate
    then client.originReadRate.toNat else readRate
  let client := { client with
    readRate := readRate,
    readLimiter := if readRate > 0 then .lim (readRate : Int) else .inf }
  let (writeRate, ok) := goMapLookupNat info.clientWriteVolRateLimitMap client.volName
  let (writeRate, ok) := if ok then (writeRate, ok)
    else goMapLookupNat info.clientWriteVolRateLimitMap emptyKey
  let writeRate := if (ok = false ∨ writeRate = 0) ∧ (0 : Int) < client.originWriteRate
    then client.originWriteRate.toNat else writeRate
  let client := { client with
    writeRate := writeRate,
    writeLimiter := if writeRate > 0 then .lim (writeRate : Int) else .inf }
  if client.extentMerge then
    { client with
      extentMergeIno := goMapLookupList info.extentMergeIno client.volName,
      extentMergeSleepMs := info.extentMergeSleepMs }
  else client
where
  /-- The default-tier fallback key of the master's rate maps. -/
  emptyKey : String := ""

/-- The constant `unit.ExtentSize`: 128 MiB. Modelled from the spec (the `util/unit`
constants are not under src/): "default=maxExtent=128 MiB". -/
def unitExtentSize : Int := 128 * 1024 * 1024

/-- The constant `unit.MinExtentSize`: 1 MiB. Modelled from the spec: "min 1 MiB". -/
def unitMinExtentSize : Int := 1024 * 1024

/-- The rounding loop of `SetExtentSize`:
`for i := unit.MinExtentSize; ; { if i > size { ...; break }; i = i * 2 }`,
given an explicit iteration bound (64 doublings always suffice for the sizes
reachable here, which `extRoundLoop_spec` certifies). -/
def extRoundLoop : Nat → Nat → Nat → Nat
  | 0, i, _ => i
  | fuel + 1, i, size => if size < i then i else extRoundLoop fuel (i * 2) size

/-- The facade operation `ExtentClient.SetExtentSize` (lines 671-698). At the bitwise test the size
is positive, so Go's `size&(size-1)` agrees with the `Nat` computation on
`size.toNat`. -/
def ExtentClient.SetExtentSize (client : ExtentClient) (size : Int) : ExtentClient :=
  if size = 0 then { client with extentSize := unitExtentSize }
  else if unitExtentSize < size then { client with extentSize := unitExtentSize }
  else if size < unitMinExtentSize then { client with extentSize := unitMinExtentSize }
  else if size.toNat &&& (size.toNat - 1) ≠ 0 then
    { client with extentSize := (extRoundLoop 64 unitMinExtentSize.toNat size.toNat : Nat) }
  else { client with extentSize := size }

/-- A natural number is a power of two. -/
def IsPow2 (n : Nat) : Prop := ∃ k, n = 2 ^ k

/-- The effective limiter value exactly as the C4 claim words it: the
master-provided per-volume rate (falling back to the empty-string key) when
that rate is present and non-zero; otherwise the constructor-provided rate
when it is positive; otherwise unlimited. -/
def claimedEffectiveLimit (m : List (String × Nat)) (vol : String) (origin : Int) : Limit :=
  let mv : Option Nat := match (m.find? (fun p => p.1 == vol)).map Prod.snd with
    | some v => some v
    | none => (m.find? (fun p => p.1 == ExtentClient.updateConfig.emptyKey)).map Prod.snd
  match mv with
  | some v => if v ≠ 0 then .lim (v : Int) else if origin > 0 then .lim origin else .inf
  | none => if origin > 0 then .lim origin else .inf

/-- A concrete streamer: latch done, cache initialized and fresh. -/
def sampleStreamer : Streamer :=
  { inode := 7, extents := { initialized := true, size := 1024, gen := 3, ageSec := 0 },
    onceDone := true, overWriteBuffer := [] }

/-- A concrete client holding `sampleStreamer` under inode 7. -/
def sampleClient : ExtentClient :=
  { volName := "vol1", streamers := [(7, sampleStreamer)], volNotExists := false,
    originReadRate := 0, originWriteRate := 0, readRate := 0, writeRate := 0,
    readLimiter := .inf, writeLimiter := .inf, extentSize := unitExtentSize,
    extentMerge := false, extentMergeIno := [], extentMergeSleepMs := 0 }

/-- The client `sampleClient` with the partition wrapper reporting the volume missing. -/
def vnClient : ExtentClient := { sampleClient with volNotExists := true }

/-- The client `sampleClient` with an empty streamer registry. -/
def emptyClient : ExtentClient := { sampleClient with streamers := [] }

/-- An oracle whose collaborators all succeed trivially. -/
def trivOracle : Oracle :=
  { getExtents := fun _ => .ok (1024, 3), prepareRequests := fun _ _ _ => [],
    issueWrite := fun _ _ _ _ _ => (0, false, none), issueFlush := fun _ => none,
    issueTrunc := fun _ _ => none, issueRelease := fun _ => none,
    issueMustRelease := fun _ => none, issueEvict := fun _ => none,
    issueExtentMerge := fun _ => (false, none), streamRead := fun _ _ _ _ => (0, false, none),
    writeToNewExtent := fun _ _ _ => .ok (1, 2, 0), writeToSpecificExtent := fun _ _ _ => .ok 0,
    updateTtlSec := 10 }

/-- A planned overwrite extent key used by the C2 witness. -/
def owKey : ExtentKey :=
  { partitionId := 1, extentId := 2, extentOffset := 0, fileOffset := 0, size := 5 }

/-- Oracle whose write plan is two overwrite requests of sizes 5 and 7. -/
def owOracle : Oracle :=
  { trivOracle with prepareRequests := fun _ _ _ =>
      [{ fileOffset := 0, size := 5, extentKey := some owKey },
       { fileOffset := 5, size := 7, extentKey := some owKey }] }

/-- Oracle whose write plan contains an append request. -/
def rowOracle : Oracle :=
  { trivOracle with prepareRequests := fun _ _ _ =>
      [{ fileOffset := 0, size := 5, extentKey := none }] }

/-- Oracle whose first stream read fails with `ExtentNotFound` and whose
second succeeds. -/
def enfOracle : Oracle :=
  { trivOracle with streamRead := fun _ attempt _ _ =>
      if attempt = 1 then (0, false, some .extentNotFound) else (42, false, none) }

/-- The streamer `sampleStreamer` with a cache 5 seconds old: fresh for the refresh TTL of
`trivOracle` (10 s) but expired for the one-second retry guard. -/
def staleStreamer : Streamer :=
  { sampleStreamer with extents := { sampleStreamer.extents with ageSec := 5 } }

/-- The client `sampleClient` holding `staleStreamer`. -/
def staleClient : ExtentClient := { sampleClient with streamers := [(7, staleStreamer)] }

/-! Theorems settling the claims, with their supporting lemmas. -/


/-- C1 (amended): when the partition wrapper reports that the volume does not
exist, the mutating operations that check it — Write, SyncWrite,
SyncWriteToSpecificExtent, Truncate, Flush — return `VolNotExists` immediately,
leave the client (in particular every streamer) unchanged, and issue no
request; `ExtentMerge`, however, performs no such check: its result and the
requests it issues are independent of the flag. -/
theorem C1_volNotExists (o : Oracle) (client : ExtentClient)
    (inode offset dataLen size dpId fileOffset extentOffset extID : Nat)
    (direct owb : Bool) (h : client.volNotExists = true) :
    client.Write o inode offset dataLen direct owb
      = ((0, false, some .volNotExists), client, []) ∧
    client.SyncWrite o inode offset dataLen
      = ((none, 0, none, some .volNotExists), client, []) ∧
    client.SyncWriteToSpecificExtent o dpId inode fileOffset extentOffset dataLen extID
      = ((0, some .volNotExists), client, []) ∧
    client.Truncate o inode size = (some .volNotExists, client, []) ∧
    client.Flush o inode = (some .volNotExists, client, []) ∧
    (client.ExtentMerge o inode).1
      = (({ client with volNotExists := false }).ExtentMerge o inode).1 ∧
    (client.ExtentMerge o inode).2.2
      = (({ client with volNotExists := false }).ExtentMerge o inode).2.2 := by
  refine ⟨?_, ?_, ?_, ?_, ?_, ?_, ?_⟩
  · simp [ExtentClient.Write, h]
  · simp [ExtentClient.SyncWrite, h]
  · simp [ExtentClient.SyncWriteToSpecificExtent, h]
  · simp [ExtentClient.Truncate, h]
  · simp [ExtentClient.Flush, h]
  all_goals
    simp only [ExtentClient.ExtentMerge, ExtentClient.lookupStreamer, ExtentClient.setStreamer]
    cases (client.streamers.find? (fun p => p.1 == inode)).map Prod.snd with
    | none => rfl
    | some s =>
      cases hs : s.doOnce o with
      | mk s1 ev1 =>
        by_cases hinit : s1.extents.initialized = true <;>
          simp [hs, hinit]

/-- C1 as stated is false on the code: with the volume reported missing,
`ExtentMerge` (which the claim lists among the mutating operations) does not
return `VolNotExists` and still enqueues a merge request on the streamer. -/
theorem C1_counterexample :
    ¬ ((vnClient.ExtentMerge trivOracle 7).1.2 = some CErr.volNotExists ∧
       (vnClient.ExtentMerge trivOracle 7).2.2 = []) := by
  decide

/-- Witness for C1 at a concrete input: the volume is reported missing and
`Flush` returns `VolNotExists` with untouched state and no issued request. -/
theorem C1_witness :
    vnClient.volNotExists = true ∧
    vnClient.Flush trivOracle 7 = (some .volNotExists, vnClient, []) :=
  ⟨rfl, (C1_volNotExists trivOracle vnClient 7 0 0 0 0 0 0 0 false false rfl).2.2.2.2.1⟩

/-- C8: Read with size 0 returns (0, false, nil), leaves the whole engine state
untouched and issues nothing, regardless of volume existence or stream state. -/
theorem C8_read_zero (o : Oracle) (client : ExtentClient) (inode offset : Nat) :
    client.Read o inode offset 0 = ((0, false, none), client, []) := by
  simp [ExtentClient.Read]

/-- C9: FileSize of an unregistered inode is (0, 0, valid=false) — no streamer
is created and no error is returned (FileSize is a pure observer of the
registry) — and with a registered streamer it is that streamer's cached size
and generation with valid=true. -/
theorem C9_FileSize (client : ExtentClient) (inode : Nat) :
    (client.lookupStreamer inode = none → client.FileSize inode = (0, 0, false)) ∧
    (∀ s, client.lookupStreamer inode = some s →
      client.FileSize inode = (s.extents.size, s.extents.gen, true)) := by
  constructor
  · intro h; simp [ExtentClient.FileSize, h]
  · intro s h; simp [ExtentClient.FileSize, h]

/-- Witness for C9: both branches at concrete clients. -/
theorem C9_witness :
    (emptyClient.lookupStreamer 7 = none ∧ emptyClient.FileSize 7 = (0, 0, false)) ∧
    (sampleClient.lookupStreamer 7 = some sampleStreamer ∧
      sampleClient.FileSize 7
        = (sampleStreamer.extents.size, sampleStreamer.extents.gen, true)) :=
  ⟨⟨rfl, (C9_FileSize emptyClient 7).1 rfl⟩,
   ⟨rfl, (C9_FileSize sampleClient 7).2 sampleStreamer rfl⟩⟩

/-- C10: CloseStream, MustCloseStream and EvictStream on an inode with no
registered streamer each return nil immediately, leave the registry (and the
whole client) unchanged and issue nothing — an idempotent no-op. -/
theorem C10_close_noop (o : Oracle) (client : ExtentClient) (inode : Nat)
    (h : client.lookupStreamer inode = none) :
    client.CloseStream o inode = (none, client, []) ∧
    client.MustCloseStream o inode = (none, client, []) ∧
    client.EvictStream o inode = (none, client, []) := by
  refine ⟨?_, ?_, ?_⟩ <;>
    simp [ExtentClient.CloseStream, ExtentClient.MustCloseStream, ExtentClient.EvictStream, h]

/-- Witness for C10 on a concrete empty registry. -/
theorem C10_witness :
    emptyClient.lookupStreamer 3 = none ∧
    emptyClient.CloseStream trivOracle 3 = (none, emptyClient, []) ∧
    emptyClient.MustCloseStream trivOracle 3 = (none, emptyClient, []) ∧
    emptyClient.EvictStream trivOracle 3 = (none, emptyClient, []) :=
  ⟨rfl, C10_close_noop trivOracle emptyClient 3 rfl⟩

/-- C6: SetReadRate and SetWriteRate with a non-positive value set the limiter
to the unlimited sentinel and return "unlimited"; with a positive value they
set the limit to that value and return its decimal string; and SetReadRate 0
followed by GetRate reports "unlimited" for the read direction. -/
theorem C6_setRate (client : ExtentClient) (v : Int) :
    (v ≤ 0 →
      (client.SetReadRate v).1.readLimiter = Limit.inf ∧
      (client.SetReadRate v).2 = "unlimited" ∧
      (client.SetWriteRate v).1.writeLimiter = Limit.inf ∧
      (client.SetWriteRate v).2 = "unlimited") ∧
    (0 < v →
      (client.SetReadRate v).1.readLimiter = Limit.lim v ∧
      (client.SetReadRate v).2 = toString v ∧
      (client.SetWriteRate v).1.writeLimiter = Limit.lim v ∧
      (client.SetWriteRate v).2 = toString v) ∧
    (client.SetReadRate 0).1.GetRate
      = "read: unlimited\nwrite: " ++ getRate client.writeLimiter ++ "\n" := by
  refine ⟨?_, ?_, ?_⟩
  · intro hv
    have hnv : ¬ (v > 0) := by omega
    simp [ExtentClient.SetReadRate, ExtentClient.SetWriteRate, setRate, hnv]
  · intro hv
    simp [ExtentClient.SetReadRate, ExtentClient.SetWriteRate, setRate, hv]
  · have h0 : ¬ ((0 : Int) > 0) := by omega
    have hinf : ¬ (rateInfAsInt > 0) := by norm_num [rateInfAsInt]
    simp [ExtentClient.SetReadRate, setRate, h0, ExtentClient.GetRate, getRate, limToInt, hinf]

/-- Witness for C6: both sign cases at concrete inputs. -/
theorem C6_witness :
    ((-3 : Int) ≤ 0 ∧ (sampleClient.SetReadRate (-3)).2 = "unlimited") ∧
    ((0 : Int) < 5 ∧ (sampleClient.SetReadRate 5).2 = toString (5 : Int)) :=
  ⟨⟨by norm_num, ((C6_setRate sampleClient (-3)).1 (by norm_num)).2.1⟩,
   ⟨by norm_num, ((C6_setRate sampleClient 5).2.1 (by norm_num)).2.1⟩⟩

/-- Collapsing two stores of the same inode. -/
theorem setStreamer_setStreamer (c : ExtentClient) (ino : Nat) (s1 s2 : Streamer) :
    (c.setStreamer ino s1).setStreamer ino s2 = c.setStreamer ino s2 := by
  simp only [ExtentClient.setStreamer, List.map_map]
  congr 1
  apply List.map_congr_left
  intro p _
  simp only [Function.comp_apply]
  by_cases h : p.1 = ino <;> simp [h]

/-- Effect of the overwrite-buffer loop of `Write`: every request is appended
to the overwrite buffer, the returned count is the sum of the request sizes,
and one buffer-append is recorded per request. -/
theorem overWriteStep_foldl (ino : Nat) (direct : Bool) (reqs : List ExtentRequest) :
    ∀ (s : Streamer) (w : Nat) (evs : List Event),
      reqs.foldl (overWriteStep ino direct) (s, w, evs)
        = ({ s with overWriteBuffer := s.overWriteBuffer ++ reqs },
           w + (reqs.map (fun r => r.size)).sum,
           evs ++ reqs.map (fun r => Event.appendOverWrite ino r.fileOffset r.size direct)) := by
  induction reqs with
  | nil => intro s w evs; simp
  | cons r rs ih =>
    intro s w evs
    simp only [List.foldl_cons, overWriteStep, Streamer.appendOverWriteReq]
    rw [ih]
    simp [Nat.add_assoc]

/-- C2: on an initialized streamer, a Write with `overWriteBuffer=true` whose
`PrepareRequests` plan contains only overwrites (all extent keys non-nil)
appends the requests to the overwrite buffer, returns the sum of the buffered
request sizes with `isROW=false` and nil error, and issues no request to the
streamer worker; if any planned request is an append (nil extent key) the call
is an `IssueWriteRequest` to the worker instead. -/
theorem C2_write_overWriteBuffer (o : Oracle) (client : ExtentClient)
    (inode offset dataLen : Nat) (direct : Bool) (s : Streamer)
    (hvol : client.volNotExists = false)
    (hs : client.lookupStreamer inode = some s)
    (honce : s.onceDone = true)
    (hinit : s.extents.initialized = true) :
    ((∀ r ∈ o.prepareRequests inode offset dataLen, r.extentKey.isSome) →
      client.Write o inode offset dataLen direct true
        = ((((o.prepareRequests inode offset dataLen).map (fun r => r.size)).sum, false, none),
           client.setStreamer inode
             { s with overWriteBuffer :=
                 s.overWriteBuffer ++ o.prepareRequests inode offset dataLen },
           (o.prepareRequests inode offset dataLen).map
             (fun r => Event.appendOverWrite inode r.fileOffset r.size direct))) ∧
    ((∃ r ∈ o.prepareRequests inode offset dataLen, r.extentKey = none) →
      client.Write o inode offset dataLen direct true
        = (o.issueWrite inode offset dataLen direct true, client.setStreamer inode s,
           [Event.issueWrite inode offset dataLen direct true])) := by
  have hdo : s.doOnce o = (s, []) := by simp [Streamer.doOnce, honce]
  constructor
  · intro hall
    have hany : (o.prepareRequests inode offset dataLen).any
        (fun req => req.extentKey.isNone) = false := by
      simp only [List.any_eq_false]
      intro r hr
      simp [Option.isNone_iff_eq_none]
      rcases Option.isSome_iff_exists.mp (hall r hr) with ⟨k, hk⟩
      simp [hk]
    simp [ExtentClient.Write, hvol, hs, hdo, hinit, hany,
      overWriteStep_foldl, setStreamer_setStreamer]
  · intro hex
    have hany : (o.prepareRequests inode offset dataLen).any
        (fun req => req.extentKey.isNone) = true := by
      simp only [List.any_eq_true]
      rcases hex with ⟨r, hr, hk⟩
      exact ⟨r, hr, by simp [hk]⟩
    simp [ExtentClient.Write, hvol, hs, hdo, hinit, hany]

/-- Witness for C2: the all-overwrite plan buffers 5+7=12 bytes and the
plan with an append issues a worker write request. -/
theorem C2_witness :
    ((∀ r ∈ owOracle.prepareRequests 7 0 12, r.extentKey.isSome) ∧
      (sampleClient.Write owOracle 7 0 12 false true).1 = (12, false, none)) ∧
    ((∃ r ∈ rowOracle.prepareRequests 7 0 12, r.extentKey = none) ∧
      (sampleClient.Write rowOracle 7 0 12 false true).2.2
        = [Event.issueWrite 7 0 12 false true]) := by
  constructor
  · refine ⟨by decide, ?_⟩
    rw [(C2_write_overWriteBuffer owOracle sampleClient 7 0 12 false sampleStreamer
      rfl rfl rfl rfl).1 (by decide)]
    rfl
  · refine ⟨⟨{ fileOffset := 0, size := 5, extentKey := none }, by decide, rfl⟩, ?_⟩
    rw [(C2_write_overWriteBuffer rowOracle sampleClient 7 0 12 false sampleStreamer
      rfl rfl rfl rfl).2 ⟨{ fileOffset := 0, size := 5, extentKey := none }, by decide, rfl⟩]

/-- The helper `goMapLookupNat` in terms of the underlying optional lookup. -/
theorem goMapLookupNat_eq (m : List (String × Nat)) (k : String) :
    goMapLookupNat m k
      = (((m.find? (fun p => p.1 == k)).map Prod.snd).getD 0,
         ((m.find? (fun p => p.1 == k)).map Prod.snd).isSome) := by
  simp only [goMapLookupNat]
  cases m.find? (fun p => p.1 == k) <;> simp

/-- C4: after a config refresh with the fetched limit info, each direction's
limiter is exactly the claim's effective rate: the master-provided per-volume
rate (falling back to the empty-string key) when present and non-zero,
otherwise the constructor-provided rate when positive, otherwise unlimited. -/
theorem C4_updateConfig (client : ExtentClient) (info : LimitInfo) :
    (client.updateConfig info).readLimiter
      = claimedEffectiveLimit info.clientReadVolRateLimitMap client.volName
          client.originReadRate ∧
    (client.updateConfig info).writeLimiter
      = claimedEffectiveLimit info.clientWriteVolRateLimitMap client.volName
          client.originWriteRate := by
  have toNat_pos : ∀ a : Int, 0 < a → 0 < a.toNat := fun a ha => by omega
  have toNat_coe : ∀ a : Int, 0 < a → ((a.toNat : Int)) = a := fun a ha => by omega
  constructor
  · rcases hv : ((info.clientReadVolRateLimitMap.find?
        (fun p => p.1 == client.volName)).map Prod.snd) with _ | rv
    · rcases he : ((info.clientReadVolRateLimitMap.find?
          (fun p => p.1 == ExtentClient.updateConfig.emptyKey)).map Prod.snd) with _ | re
      · by_cases h3 : (0 : Int) < client.originReadRate
        · simp [ExtentClient.updateConfig, claimedEffectiveLimit, goMapLookupNat_eq,
            apply_ite ExtentClient.readLimiter, apply_ite ExtentClient.writeLimiter, hv, he, h3,
            toNat_pos _ h3, toNat_coe _ h3]
        · simp [ExtentClient.updateConfig, claimedEffectiveLimit, goMapLookupNat_eq,
            apply_ite ExtentClient.readLimiter, apply_ite ExtentClient.writeLimiter, hv, he, h3]
      · by_cases h2 : re = 0
        · by_cases h3 : (0 : Int) < client.originReadRate
          · simp [ExtentClient.updateConfig, claimedEffectiveLimit, goMapLookupNat_eq,
            apply_ite ExtentClient.readLimiter, apply_ite ExtentClient.writeLimiter, hv, he,
              h2, h3, toNat_pos _ h3, toNat_coe _ h3]
          · simp [ExtentClient.updateConfig, claimedEffectiveLimit, goMapLookupNat_eq,
            apply_ite ExtentClient.readLimiter, apply_ite ExtentClient.writeLimiter, hv, he,
              h2, h3]
        · simp [ExtentClient.updateConfig, claimedEffectiveLimit, goMapLookupNat_eq,
            apply_ite ExtentClient.readLimiter, apply_ite ExtentClient.writeLimiter, hv, he,
            h2, Nat.pos_of_ne_zero h2]
    · by_cases h2 : rv = 0
      · by_cases h3 : (0 : Int) < client.originReadRate
        · simp [ExtentClient.updateConfig, claimedEffectiveLimit, goMapLookupNat_eq,
            apply_ite ExtentClient.readLimiter, apply_ite ExtentClient.writeLimiter, hv,
            h2, h3, toNat_pos _ h3, toNat_coe _ h3]
        · simp [ExtentClient.updateConfig, claimedEffectiveLimit, goMapLookupNat_eq,
            apply_ite ExtentClient.readLimiter, apply_ite ExtentClient.writeLimiter, hv, h2, h3]
      · simp [ExtentClient.updateConfig, claimedEffectiveLimit, goMapLookupNat_eq,
            apply_ite ExtentClient.readLimiter, apply_ite ExtentClient.writeLimiter, hv,
          h2, Nat.pos_of_ne_zero h2]
  · rcases hv : ((info.clientWriteVolRateLimitMap.find?
        (fun p => p.1 == client.volName)).map Prod.snd) with _ | rv
    · rcases he : ((info.clientWriteVolRateLimitMap.find?
          (fun p => p.1 == ExtentClient.updateConfig.emptyKey)).map Prod.snd) with _ | re
      · by_cases h3 : (0 : Int) < client.originWriteRate
        · simp [ExtentClient.updateConfig, claimedEffectiveLimit, goMapLookupNat_eq,
            apply_ite ExtentClient.readLimiter, apply_ite ExtentClient.writeLimiter, hv, he, h3,
            toNat_pos _ h3, toNat_coe _ h3]
        · simp [ExtentClient.updateConfig, claimedEffectiveLimit, goMapLookupNat_eq,
            apply_ite ExtentClient.readLimiter, apply_ite ExtentClient.writeLimiter, hv, he, h3]
      · by_cases h2 : re = 0
        · by_cases h3 : (0 : Int) < client.originWriteRate
          · simp [ExtentClient.updateConfig, claimedEffectiveLimit, goMapLookupNat_eq,
            apply_ite ExtentClient.readLimiter, apply_ite ExtentClient.writeLimiter, hv, he,
              h2, h3, toNat_pos _ h3, toNat_coe _ h3]
          · simp [ExtentClient.updateConfig, claimedEffectiveLimit, goMapLookupNat_eq,
            apply_ite ExtentClient.readLimiter, apply_ite ExtentClient.writeLimiter, hv, he,
              h2, h3]
        · simp [ExtentClient.updateConfig, claimedEffectiveLimit, goMapLookupNat_eq,
            apply_ite ExtentClient.readLimiter, apply_ite ExtentClient.writeLimiter, hv, he,
            h2, Nat.pos_of_ne_zero h2]
    · by_cases h2 : rv = 0
      · by_cases h3 : (0 : Int) < client.originWriteRate
        · simp [ExtentClient.updateConfig, claimedEffectiveLimit, goMapLookupNat_eq,
            apply_ite ExtentClient.readLimiter, apply_ite ExtentClient.writeLimiter, hv,
            h2, h3, toNat_pos _ h3, toNat_coe _ h3]
        · simp [ExtentClient.updateConfig, claimedEffectiveLimit, goMapLookupNat_eq,
            apply_ite ExtentClient.readLimiter, apply_ite ExtentClient.writeLimiter, hv, h2, h3]
      · simp [ExtentClient.updateConfig, claimedEffectiveLimit, goMapLookupNat_eq,
            apply_ite ExtentClient.readLimiter, apply_ite ExtentClient.writeLimiter, hv,
          h2, Nat.pos_of_ne_zero h2]

/-- The step of `find?` over a key-equality test, one step. -/
theorem find?_cons_eq (j : Nat) (p : Nat × Streamer) (ps : List (Nat × Streamer)) :
    (p :: ps).find? (fun q => q.1 == j)
      = if p.1 = j then some p else ps.find? (fun q => q.1 == j) := by
  cases hb : p.1 == j with
  | true =>
    have h : p.1 = j := by simpa using hb
    simp [List.find?, hb, h]
  | false =>
    have h : ¬ p.1 = j := by simpa using hb
    simp [List.find?, hb, h]

/-- Removing one inode leaves lookups of other inodes unchanged. -/
theorem find_filter_ne (ps : List (Nat × Streamer)) (i j : Nat) (h : j ≠ i) :
    (ps.filter (fun p => p.1 != i)).find? (fun p => p.1 == j)
      = ps.find? (fun p => p.1 == j) := by
  induction ps with
  | nil => rfl
  | cons p ps ih =>
    by_cases hp : p.1 = i
    · have hfilter : (p :: ps).filter (fun q => q.1 != i) = ps.filter (fun q => q.1 != i) := by
        simp [List.filter_cons, hp]
      rw [hfilter, ih, find?_cons_eq, if_neg (by omega : ¬ p.1 = j)]
    · have hfilter : (p :: ps).filter (fun q => q.1 != i)
          = p :: ps.filter (fun q => q.1 != i) := by
        simp [List.filter_cons, hp]
      by_cases hj : p.1 = j
      · rw [hfilter, find?_cons_eq, find?_cons_eq, if_pos hj, if_pos hj]
      · rw [hfilter, find?_cons_eq, find?_cons_eq, if_neg hj, if_neg hj, ih]

/-- The result of `lookupStreamer` after `removeStreamer` of a different inode. -/
theorem lookupStreamer_removeStreamer (c : ExtentClient) (i j : Nat) (h : j ≠ i) :
    (c.removeStreamer i).lookupStreamer j = c.lookupStreamer j := by
  simp only [ExtentClient.removeStreamer, ExtentClient.lookupStreamer]
  rw [find_filter_ne c.streamers i j h]

/-- The release loop of `Close`: with the volume present and every listed inode
registered (all distinct), each inode contributes exactly the three requests
Flush, MustRelease, Evict, in order. -/
theorem closeRelease_foldl (o : Oracle) :
    ∀ (inos : List Nat) (c : ExtentClient) (evs : List Event),
      c.volNotExists = false →
      (∀ i ∈ inos, (c.lookupStreamer i).isSome) →
      inos.Nodup →
      (inos.foldl (closeReleaseOne o) (c, evs)).2
        = evs ++ inos.flatMap
            (fun i => [Event.issueFlush i, Event.issueMustRelease i, Event.issueEvict i]) := by
  intro inos
  induction inos with
  | nil => intro c evs _ _ _; simp
  | cons i rest ih =>
    intro c evs hvol hin hnd
    obtain ⟨s, hs⟩ := Option.isSome_iff_exists.mp (hin i (by simp))
    rw [List.nodup_cons] at hnd
    rw [List.foldl_cons]
    cases he : o.issueEvict i with
    | none =>
      have hstep : closeReleaseOne o (c, evs) i
          = (c.removeStreamer i,
             evs ++ [Event.issueFlush i, Event.issueMustRelease i, Event.issueEvict i]) := by
        simp [closeReleaseOne, ExtentClient.Flush, ExtentClient.MustCloseStream,
          ExtentClient.EvictStream, hvol, hs, he]
      rw [hstep, ih (c.removeStreamer i) _ hvol ?_ hnd.2]
      · simp
      · intro j hj
        rw [lookupStreamer_removeStreamer c i j (by rintro rfl; exact hnd.1 hj)]
        exact hin j (by simp [hj])
    | some e =>
      have hstep : closeReleaseOne o (c, evs) i
          = (c, evs ++ [Event.issueFlush i, Event.issueMustRelease i, Event.issueEvict i]) := by
        simp [closeReleaseOne, ExtentClient.Flush, ExtentClient.MustCloseStream,
          ExtentClient.EvictStream, hvol, hs, he]
      rw [hstep, ih c _ hvol ?_ hnd.2]
      · simp
      · intro j hj
        exact hin j (by simp [hj])

/-- C7 (amended): `Close` signals the stop channel, waits for the background
tasks and stops the partition wrapper FIRST, and only then releases every
registered streamer with Flush → MustCloseStream → EvictStream per inode,
always returning nil; the connection pool is not closed by `Close` at all (its
teardown is the separate `CloseConnPool`). -/
theorem C7_Close (o : Oracle) (client : ExtentClient)
    (hvol : client.volNotExists = false)
    (hnd : (client.streamers.map Prod.fst).Nodup) :
    (client.Close o).1 = none ∧
    (client.Close o).2.2
      = [Event.closeStop, Event.wgWait, Event.wrapperStop]
        ++ (client.streamers.map Prod.fst).flatMap
            (fun i => [Event.issueFlush i, Event.issueMustRelease i, Event.issueEvict i]) ∧
    Event.connPoolClose ∉ (client.Close o).2.2 := by
  have hin : ∀ i ∈ client.streamers.map Prod.fst, (client.lookupStreamer i).isSome := by
    intro i hi
    rcases List.mem_map.mp hi with ⟨p, hp, rfl⟩
    simp only [ExtentClient.lookupStreamer, Option.isSome_map']
    exact List.find?_isSome.mpr ⟨p, hp, by simp⟩
  have htr : (client.Close o).2.2
      = [Event.closeStop, Event.wgWait, Event.wrapperStop]
        ++ (client.streamers.map Prod.fst).flatMap
            (fun i => [Event.issueFlush i, Event.issueMustRelease i, Event.issueEvict i]) := by
    simp only [ExtentClient.Close]
    rw [closeRelease_foldl o (client.streamers.map Prod.fst) client
      [Event.closeStop, Event.wgWait, Event.wrapperStop] hvol hin hnd]
  refine ⟨rfl, htr, ?_⟩
  · rw [htr]
    simp only [List.mem_append, List.mem_flatMap]
    rintro (h | ⟨i, _, h⟩) <;> simp_all

/-- C7 as stated is false on the code: at a concrete client with one open
streamer, the partition wrapper is stopped (trace index 2) before the
streamer's Flush/MustRelease/Evict, and no connection-pool close ever appears
in `Close`'s trace. -/
theorem C7_counterexample :
    Event.connPoolClose ∉ (sampleClient.Close trivOracle).2.2 ∧
    (sampleClient.Close trivOracle).2.2
      = [Event.closeStop, Event.wgWait, Event.wrapperStop,
         Event.issueFlush 7, Event.issueMustRelease 7, Event.issueEvict 7] := by
  decide

/-- Witness for C7 at a concrete client. -/
theorem C7_witness :
    sampleClient.volNotExists = false ∧
    (sampleClient.streamers.map Prod.fst).Nodup ∧
    (sampleClient.Close trivOracle).1 = none :=
  ⟨rfl, by decide, (C7_Close trivOracle sampleClient rfl (by decide)).1⟩

/-- C3 (amended): when a read inside `Read` fails with an error containing
`ExtentNotFound`, the flush + full refetch + single retry happens only when the
extent cache is older than one second (`IsExpired(1)`): with a fresh cache the
error is returned with no flush, refetch or retry; when expired, the flush is
issued, and a flush or refetch failure aborts the recovery and is returned,
while on success the read is retried exactly once and its result is the single
reply. -/
theorem C3_read_retry (o : Oracle) (client : ExtentClient) (inode offset : Nat) (size : Int)
    (s : Streamer) (r1 : Nat) (h1 : Bool) (e : CErr)
    (hsz : size ≠ 0) (hvol : client.volNotExists = false)
    (hs : client.lookupStreamer inode = some s)
    (hino : s.inode = inode)
    (honce : s.onceDone = true) (hinit : s.extents.initialized = true)
    (hfresh : s.extents.isExpired o.updateTtlSec = false)
    (hread : o.streamRead inode 1 offset size = (r1, h1, some e))
    (henf : e.containsExtentNotFound = true) :
    (s.extents.isExpired 1 = false →
      client.Read o inode offset size
        = ((r1, h1, some e), client.setStreamer inode s,
           [Event.streamRead inode 1 offset size])) ∧
    (s.extents.isExpired 1 = true →
      (∀ fe, o.issueFlush inode = some fe →
        client.Read o inode offset size
          = ((r1, h1, some fe), client.setStreamer inode s,
             [Event.streamRead inode 1 offset size, Event.issueFlush inode])) ∧
      (o.issueFlush inode = none →
        (∀ ge, o.getExtents inode = .error ge →
          client.Read o inode offset size
            = ((r1, h1, some ge), client.setStreamer inode s,
               [Event.streamRead inode 1 offset size, Event.issueFlush inode,
                Event.getExtents inode])) ∧
        (∀ sz g, o.getExtents inode = .ok (sz, g) →
          client.Read o inode offset size
            = (o.streamRead inode 2 offset size,
               client.setStreamer inode
                 { s with extents :=
                     { initialized := true, size := sz, gen := g, ageSec := 0 } },
               [Event.streamRead inode 1 offset size, Event.issueFlush inode,
                Event.getExtents inode, Event.streamRead inode 2 offset size])))) := by
  have hdo : s.doOnce o = (s, []) := by simp [Streamer.doOnce, honce]
  have hup : s.updateExpiredExtentCache o = (s, []) := by
    simp [Streamer.updateExpiredExtentCache, hfresh]
  refine ⟨?_, ?_⟩
  · intro hexp
    simp [ExtentClient.Read, hsz, hvol, hs, hdo, hinit, hup, hread, henf, hexp]
  · intro hexp
    refine ⟨?_, ?_⟩
    · intro fe hfe
      simp [ExtentClient.Read, hsz, hvol, hs, hdo, hinit, hup, hread, henf, hexp, hfe]
    · intro hfl
      refine ⟨?_, ?_⟩
      · intro ge hge
        simp [ExtentClient.Read, hsz, hvol, hs, hdo, hinit, hup, hread, henf, hexp, hfl,
          Streamer.getExtents, hino, hge]
      · intro sz g hok
        simp [ExtentClient.Read, hsz, hvol, hs, hdo, hinit, hup, hread, henf, hexp, hfl,
          Streamer.getExtents, hino, hok]

/-- C3 as stated is false on the code: at a concrete client whose extent cache
was refreshed less than a second ago, the read fails with `ExtentNotFound` yet
`Read` neither flushes, nor refetches, nor retries — it returns the error after
the single read attempt. -/
theorem C3_counterexample :
    (enfOracle.streamRead 7 1 0 100).2.2 = some CErr.extentNotFound ∧
    (sampleClient.Read enfOracle 7 0 100).2.2 = [Event.streamRead 7 1 0 100] ∧
    Event.issueFlush 7 ∉ (sampleClient.Read enfOracle 7 0 100).2.2 ∧
    Event.streamRead 7 2 0 100 ∉ (sampleClient.Read enfOracle 7 0 100).2.2 := by
  decide

/-- Witness for C3 at a concrete input on the expired path: flush, refetch and
exactly one retry whose result is the reply. -/
theorem C3_witness :
    staleStreamer.extents.isExpired 1 = true ∧
    enfOracle.streamRead 7 1 0 100 = (0, false, some CErr.extentNotFound) ∧
    enfOracle.issueFlush 7 = none ∧
    enfOracle.getExtents 7 = .ok (1024, 3) ∧
    staleClient.Read enfOracle 7 0 100
      = (enfOracle.streamRead 7 2 0 100,
         staleClient.setStreamer 7
           { staleStreamer with extents :=
               { initialized := true, size := 1024, gen := 3, ageSec := 0 } },
         [Event.streamRead 7 1 0 100, Event.issueFlush 7, Event.getExtents 7,
          Event.streamRead 7 2 0 100]) := by
  refine ⟨rfl, rfl, rfl, rfl, ?_⟩
  exact ((((C3_read_retry enfOracle staleClient 7 0 100 staleStreamer 0 false
      CErr.extentNotFound (by norm_num) rfl rfl rfl rfl rfl rfl rfl rfl).2 rfl).2 rfl).2)
    1024 3 rfl

/-- A power of two and its predecessor share no bits. -/
theorem land_pred_eq_zero_of_pow2 (k : Nat) : (2 ^ k) &&& (2 ^ k - 1) = 0 := by
  apply Nat.eq_of_testBit_eq
  intro i
  simp only [Nat.testBit_and, Nat.testBit_two_pow_sub_one, Nat.zero_testBit,
    Nat.testBit_two_pow]
  by_cases h : k = i
  · subst h; simp
  · simp [h]

/-- Conversely, a positive number sharing no bit with its predecessor is a
power of two: this is the correctness of the `size&(size-1)` test. -/
theorem pow2_of_land_pred_eq_zero :
    ∀ n : Nat, 0 < n → n &&& (n - 1) = 0 → IsPow2 n := by
  intro n
  induction n using Nat.strong_induction_on with
  | _ n ih =>
    intro hn h
    rcases Nat.even_or_odd n with he | ho
    · obtain ⟨m, hm⟩ := he
      have hm2 : n = 2 * m := by omega
      have hmpos : 0 < m := by omega
      have hrec : m &&& (m - 1) = 0 := by
        apply Nat.eq_of_testBit_eq
        intro i
        have hbit := congrArg (fun x => x.testBit (i + 1)) h
        simp only [Nat.testBit_and, Nat.zero_testBit] at hbit ⊢
        rw [Nat.testBit_add_one, Nat.testBit_add_one] at hbit
        have e1 : n / 2 = m := by omega
        have e2 : (n - 1) / 2 = m - 1 := by omega
        rw [e1, e2] at hbit
        exact hbit
      rcases ih m (by omega) hmpos hrec with ⟨k, hk⟩
      exact ⟨k + 1, by rw [hm2, hk, pow_succ]; ring⟩
    · rcases ho with ⟨m, hm⟩
      by_cases hm0 : m = 0
      · exact ⟨0, by omega⟩
      · exfalso
        obtain ⟨i, hi⟩ := Nat.ne_zero_implies_bit_true (x := m) hm0
        have hbit := congrArg (fun x => x.testBit (i + 1)) h
        simp only [Nat.testBit_and, Nat.zero_testBit] at hbit
        rw [Nat.testBit_add_one, Nat.testBit_add_one] at hbit
        have e1 : n / 2 = m := by omega
        have e2 : (n - 1) / 2 = m := by omega
        rw [e1, e2, hi] at hbit
        simp at hbit

/-- Once `i` exceeds `size` the rounding loop stops at `i` regardless of the
remaining bound. -/
theorem extRoundLoop_gt (fuel i size : Nat) (h : size < i) :
    extRoundLoop fuel i size = i := by
  cases fuel <;> simp [extRoundLoop, h]

/-- Behaviour of the rounding loop: started at a positive `i` not exceeding
`size`, with enough fuel, it returns the first doubling `i * 2 ^ k` that
exceeds `size` (so the previous doubling did not). -/
theorem extRoundLoop_spec :
    ∀ (fuel i size : Nat), 0 < i → i ≤ size → size < i * 2 ^ fuel →
      ∃ k, 0 < k ∧ extRoundLoop fuel i size = i * 2 ^ k ∧
        size < i * 2 ^ k ∧ i * 2 ^ (k - 1) ≤ size := by
  intro fuel
  induction fuel with
  | zero =>
    intro i size hi hle hbound
    simp at hbound
    omega
  | succ fuel ih =>
    intro i size hi hle hbound
    have hnot : ¬ size < i := by omega
    simp only [extRoundLoop, if_neg hnot]
    by_cases h2 : size < i * 2
    · rw [extRoundLoop_gt fuel (i * 2) size h2]
      exact ⟨1, by omega, by ring, by simpa using h2, by simpa using hle⟩
    · have hb2 : size < i * 2 * 2 ^ fuel := by
        have : i * 2 * 2 ^ fuel = i * 2 ^ (fuel + 1) := by ring
        omega
      rcases ih (i * 2) size (by omega) (by omega) hb2 with ⟨k, hk, heq, hlt, hge⟩
      have hk1 : k - 1 + 1 = k := by omega
      have hpows : i * 2 * 2 ^ k = i * 2 ^ (k + 1) := by ring
      have hpowp : i * 2 * 2 ^ (k - 1) = i * 2 ^ k := by
        calc i * 2 * 2 ^ (k - 1) = i * (2 ^ (k - 1) * 2) := by ring
      
        _ = i * 2 ^ (k - 1 + 1) := by rw [pow_succ]
        _ = i * 2 ^ k := by rw [hk1]
      refine ⟨k + 1, by omega, ?_, by omega, ?_⟩
      · rw [heq, hpows]
      · have : k + 1 - 1 = k := by omega
        rw [this]
        omega

/-- Three MiB (3145728) is not a power of two. -/
theorem not_isPow2_3MiB : ¬ IsPow2 (3 * 1024 * 1024 : Int).toNat := by
  rintro ⟨k, hk⟩
  have hk2 : (3145728 : Nat) = 2 ^ k := hk
  have h1 : (2 : Nat) ^ 21 < 2 ^ k := by rw [← hk2]; norm_num
  have h2 : (2 : Nat) ^ k < 2 ^ 22 := by rw [← hk2]; norm_num
  have g1 := (Nat.pow_lt_pow_iff_right (a := 2) (by norm_num)).mp h1
  have g2 := (Nat.pow_lt_pow_iff_right (a := 2) (by norm_num)).mp h2
  omega

/-- C5: the `SetExtentSize` coercion — 0 becomes the 128 MiB default, values
above 128 MiB are clamped to 128 MiB, non-zero values below 1 MiB are raised
to 1 MiB, an in-range non-power-of-two is rounded up to the next power of two
(a power of two no less than the input and less than its double; in particular
3 MiB becomes 4 MiB), and an in-range power of two is kept unchanged. -/
theorem C5_SetExtentSize (client : ExtentClient) (size : Int) :
    ((client.SetExtentSize 0).extentSize = unitExtentSize) ∧
    (unitExtentSize < size → (client.SetExtentSize size).extentSize = unitExtentSize) ∧
    (size ≠ 0 → size < unitMinExtentSize →
      (client.SetExtentSize size).extentSize = unitMinExtentSize) ∧
    (unitMinExtentSize ≤ size → size ≤ unitExtentSize → ¬ IsPow2 size.toNat →
      IsPow2 (client.SetExtentSize size).extentSize.toNat ∧
      size ≤ (client.SetExtentSize size).extentSize ∧
      (client.SetExtentSize size).extentSize < 2 * size) ∧
    (unitMinExtentSize ≤ size → size ≤ unitExtentSize → IsPow2 size.toNat →
      (client.SetExtentSize size).extentSize = size) ∧
    ((client.SetExtentSize (3 * 1024 * 1024)).extentSize = 4 * 1024 * 1024) := by
  have humin : unitMinExtentSize = (1048576 : Int) := by norm_num [unitMinExtentSize]
  have humax : unitExtentSize = (134217728 : Int) := by norm_num [unitExtentSize]
  refine ⟨?_, ?_, ?_, ?_, ?_, ?_⟩
  · simp [ExtentClient.SetExtentSize]
  · intro h
    have h0 : ¬ (size = 0) := by rw [humax] at h; omega
    simp [ExtentClient.SetExtentSize, h0, h]
  · intro h0 hlt
    have hno : ¬ unitExtentSize < size := by rw [humin] at hlt; rw [humax]; omega
    simp [ExtentClient.SetExtentSize, h0, hno, hlt]
  · intro hge hle hnp
    have h0 : ¬ (size = 0) := by rw [humin] at hge; omega
    have hno : ¬ unitExtentSize < size := by omega
    have hnlt : ¬ size < unitMinExtentSize := by omega
    have hpos : 0 < size.toNat := by rw [humin] at hge; omega
    have hland : size.toNat &&& (size.toNat - 1) ≠ 0 := by
      intro hz
      exact hnp (pow2_of_land_pred_eq_zero size.toNat hpos hz)
    have hmin20 : unitMinExtentSize.toNat = 2 ^ 20 := by decide
    have hle27 : size.toNat ≤ 2 ^ 27 := by
      rw [humax] at hle
      have : (2 : Nat) ^ 27 = 134217728 := by norm_num
      omega
    have hge20 : 2 ^ 20 ≤ size.toNat := by
      rw [humin] at hge
      have : (2 : Nat) ^ 20 = 1048576 := by norm_num
      omega
    have hbound : size.toNat < 2 ^ 20 * 2 ^ 64 := by
      have : (2 : Nat) ^ 20 * 2 ^ 64 = 2 ^ 84 := by norm_num
      have h27 : (2 : Nat) ^ 27 < 2 ^ 84 := by norm_num
      omega
    rcases extRoundLoop_spec 64 (2 ^ 20) size.toNat (by norm_num) hge20 hbound
      with ⟨k, hk, heq, hlt, hprev⟩
    have hres : (client.SetExtentSize size).extentSize
        = ((extRoundLoop 64 unitMinExtentSize.toNat size.toNat : Nat) : Int) := by
      simp [ExtentClient.SetExtentSize, h0, hno, hnlt, hland]
    rw [hres, hmin20, heq]
    refine ⟨⟨20 + k, ?_⟩, ?_, ?_⟩
    · rw [Int.toNat_natCast, pow_add]
    · have hsz : size = (size.toNat : Int) := by omega
      rw [hsz]
      exact_mod_cast hlt.le
    · rcases Nat.eq_or_lt_of_le hprev with hcase | hcase
      · exfalso
        exact hnp ⟨20 + (k - 1), by rw [← hcase, pow_add]⟩
      · have hk1 : k - 1 + 1 = k := by omega
        have hpowk : (2 : Nat) ^ k = 2 ^ (k - 1) * 2 := by
          conv_lhs => rw [← hk1]
          rw [pow_succ]
        have hdouble : (2 : Nat) ^ 20 * 2 ^ k = 2 * (2 ^ 20 * 2 ^ (k - 1)) := by
          rw [hpowk]; ring
        have hsz : size = (size.toNat : Int) := by omega
        rw [hsz]
        have hfin : (2 ^ 20 * 2 ^ k : Nat) < 2 * size.toNat := by
          rw [hdouble]
          exact mul_lt_mul_of_pos_left hcase (by norm_num)
        exact_mod_cast hfin
  · intro hge hle hp
    have h0 : ¬ (size = 0) := by rw [humin] at hge; omega
    have hno : ¬ unitExtentSize < size := by omega
    have hnlt : ¬ size < unitMinExtentSize := by omega
    rcases hp with ⟨k, hk⟩
    have hland : ¬ (size.toNat &&& (size.toNat - 1) ≠ 0) := by
      rw [hk]
      simp [land_pred_eq_zero_of_pow2 k]
    simp [ExtentClient.SetExtentSize, h0, hno, hnlt, hland]
  · unfold ExtentClient.SetExtentSize
    rw [if_neg (by norm_num : ¬ (3 * 1024 * 1024 : Int) = 0),
        if_neg (by norm_num [unitExtentSize] : ¬ unitExtentSize < (3 * 1024 * 1024 : Int)),
        if_neg (by norm_num [unitMinExtentSize] :
          ¬ (3 * 1024 * 1024 : Int) < unitMinExtentSize),
        if_pos (by decide :
          (3 * 1024 * 1024 : Int).toNat &&& ((3 * 1024 * 1024 : Int).toNat - 1) ≠ 0)]
    show ((extRoundLoop 64 unitMinExtentSize.toNat (3 * 1024 * 1024 : Int).toNat : Nat) : Int)
        = 4 * 1024 * 1024
    decide

/-- Witness for C5: the clamp-down, raise-up, power-kept and round-up branches
at concrete inputs (200 MiB, 512 KiB, 2 MiB, 3 MiB). -/
theorem C5_witness :
    (unitExtentSize < (200 * 1024 * 1024 : Int) ∧
      (sampleClient.SetExtentSize (200 * 1024 * 1024)).extentSize = unitExtentSize) ∧
    ((512 * 1024 : Int) ≠ 0 ∧ (512 * 1024 : Int) < unitMinExtentSize ∧
      (sampleClient.SetExtentSize (512 * 1024)).extentSize = unitMinExtentSize) ∧
    (IsPow2 (2 * 1024 * 1024 : Int).toNat ∧
      (sampleClient.SetExtentSize (2 * 1024 * 1024)).extentSize = 2 * 1024 * 1024) ∧
    (¬ IsPow2 (3 * 1024 * 1024 : Int).toNat ∧
      IsPow2 (sampleClient.SetExtentSize (3 * 1024 * 1024)).extentSize.toNat) := by
  refine ⟨⟨by norm_num [unitExtentSize], ?_⟩, ⟨by norm_num, by norm_num [unitMinExtentSize], ?_⟩,
    ⟨⟨21, by decide⟩, ?_⟩, ⟨not_isPow2_3MiB, ?_⟩⟩
  · exact (C5_SetExtentSize sampleClient (200 * 1024 * 1024)).2.1
      (by norm_num [unitExtentSize])
  · exact (C5_SetExtentSize sampleClient (512 * 1024)).2.2.1 (by norm_num)
      (by norm_num [unitMinExtentSize])
  · exact (C5_SetExtentSize sampleClient (2 * 1024 * 1024)).2.2.2.2.1
      (by norm_num [unitMinExtentSize]) (by norm_num [unitExtentSize]) ⟨21, by decide⟩
  · exact ((C5_SetExtentSize sampleClient (3 * 1024 * 1024)).2.2.2.1
      (by norm_num [unitMinExtentSize]) (by norm_num [unitExtentSize]) not_isPow2_3MiB).1

end Cfs
